import Mathlib

/-!
# Verification of the Conway's Game of Life grid engine and RLE loader

Shallow embedding of the simulation core of `src/main.c`:
the global `grid` of C `int` cells, `count_neighbours`, `update_grid`,
`clear_screen`, `grid_randomize`, the RLE pattern loader `load_rle`,
and the inline cell toggle performed in `game_events`.

C `int` cell values are modelled as `ℤ`; C truthiness (`if (grid[y][x])`)
is the test `≠ 0`.  Reads and writes in the C code are all guarded by
explicit bounds checks except the mouse toggle; the unguarded array
access of the toggle is modelled as a fallible (`Option`-valued)
operation, since an out-of-bounds C array access has no defined result.
-/

namespace Life

/-- `WINDOW_WIDTH` from `src/main.c`. -/
abbrev WINDOW_WIDTH : ℕ := 1050

/-- `WINDOW_HEIGHT` from `src/main.c`. -/
abbrev WINDOW_HEIGHT : ℕ := 945

/-- `TILE_SIZE` from `src/main.c`. -/
abbrev TILE_SIZE : ℕ := 35

/-- `GRID_WIDTH = WINDOW_WIDTH / TILE_SIZE` (= 30). -/
abbrev GRID_WIDTH : ℕ := WINDOW_WIDTH / TILE_SIZE

/-- `GRID_HEIGHT = WINDOW_HEIGHT / TILE_SIZE` (= 27). -/
abbrev GRID_HEIGHT : ℕ := WINDOW_HEIGHT / TILE_SIZE

/-- The contents of the C array `int grid[GRID_HEIGHT][GRID_WIDTH]`:
a total assignment of a C `int` to every in-bounds coordinate,
indexed as `g y x` to mirror `grid[y][x]`. -/
abbrev Grid := Fin GRID_HEIGHT → Fin GRID_WIDTH → ℤ

/-- The coordinate pair `(y, x)` indexes inside the array bounds:
`0 <= y < GRID_HEIGHT && 0 <= x < GRID_WIDTH`. -/
def InBounds (y x : ℤ) : Prop :=
  0 ≤ y ∧ y < GRID_HEIGHT ∧ 0 ≤ x ∧ x < GRID_WIDTH

instance (y x : ℤ) : Decidable (InBounds y x) := by
  unfold InBounds; infer_instance

/-- Bounds-guarded read of `grid[y][x]`: the value when `(y, x)` is in
bounds, and `0` otherwise.  Every read in the C simulation code is
guarded by exactly this bounds check (`count_neighbours` skips
out-of-range rows and columns, which contribute nothing to its sum,
i.e. contribute `0`). -/
def getCell (g : Grid) (y x : ℤ) : ℤ :=
  if h : InBounds y x then
    g ⟨y.toNat, by unfold InBounds at h; omega⟩ ⟨x.toNat, by unfold InBounds at h; omega⟩
  else 0

/-- `clear_screen` from `src/main.c`: every cell set to `0`. -/
def clear_screen : Grid := fun _ _ => 0

/-- `grid_randomize` from `src/main.c`: cell `(y, x)` receives
`rand() % 2` where `rand` yields a fresh non-negative value per call;
the calls happen in row-major order, so cell `(y, x)` consumes the
`(y * GRID_WIDTH + x)`-th value of the stream `r`. -/
def grid_randomize (r : ℕ → ℕ) : Grid := fun y x =>
  ((r (y * GRID_WIDTH + x) % 2 : ℕ) : ℤ)

/-- `count_neighbours` from `src/main.c`: for `dy`, `dx` ranging over
`-1..1`, skip the centre `(dy, dx) = (0, 0)` and add the value of each
in-bounds neighbour cell (the C code `continue`s past out-of-range rows
and columns, so they add nothing; `getCell` returns `0` there). -/
def count_neighbours (g : Grid) (y x : ℤ) : ℤ :=
  (([-1, 0, 1] : List ℤ).map fun dy =>
    (([-1, 0, 1] : List ℤ).map fun dx =>
      if dx = 0 ∧ dy = 0 then 0 else getCell g (y + dy) (x + dx)).sum).sum

/-- `update_grid` from `src/main.c`: `next_grid[y][x]` is computed for
every cell from the *current* `grid` (`neighbours == 2 || neighbours == 3`
when `grid[y][x]` is truthy, `neighbours == 3` otherwise; the C `==`/`||`
result is the int `1` or `0`), and only afterwards is `next_grid` copied
into `grid`.  Because every `next_grid` entry is a function of the
pre-step `grid` alone, the two-phase loop is the pointwise function
below. -/
def update_grid (g : Grid) : Grid := fun y x =>
  let neighbours := count_neighbours g (y : ℤ) (x : ℤ)
  if g y x ≠ 0 then
    (if neighbours = 2 ∨ neighbours = 3 then 1 else 0)
  else
    (if neighbours = 3 then 1 else 0)

/-- C `!` on an `int`: `!0 = 1` and `!v = 0` for `v ≠ 0`. -/
def lnot (v : ℤ) : ℤ := if v = 0 then 1 else 0

/-- Unchecked C array read `grid[y][x]`: defined only in bounds. -/
def readCell (g : Grid) (y x : ℤ) : Option ℤ :=
  if h : InBounds y x then
    some (g ⟨y.toNat, by unfold InBounds at h; omega⟩ ⟨x.toNat, by unfold InBounds at h; omega⟩)
  else none

/-- Unchecked C array write `grid[y][x] = v`: defined only in bounds. -/
def writeCell (g : Grid) (y x : ℤ) (v : ℤ) : Option Grid :=
  if InBounds y x then
    some (fun y' x' => if (y' : ℤ) = y ∧ (x' : ℤ) = x then v else g y' x')
  else none

/-- The cell toggle executed in `game_events` on a mouse click:
`grid[y_g][x_g] = !(grid[y_g][x_g]);` — a read followed by a write of
the logical negation, with **no** bounds check in the C code, so the
result is undefined (`none`) whenever `(y, x)` is out of bounds. -/
def toggle_cell (g : Grid) (y x : ℤ) : Option Grid :=
  (readCell g y x).bind fun v => writeCell g y x (lnot v)

/-- The grid with the single cell `(y, x)` replaced by `lnot` of its
value: what an in-bounds toggle produces. -/
def flipAt (g : Grid) (y x : ℤ) : Grid := fun y' x' =>
  if (y' : ℤ) = y ∧ (x' : ℤ) = x then lnot (g y' x') else g y' x'

/-!
## The RLE loader (`load_rle` in `src/main.c`)

The C function reads the file line by line with `fgets`.  A source that
fails to open is `none`; an opened source is its list of lines, each a
`List Char` (`fgets` splits exactly at newlines for the short lines all
RLE files have; the `'\n'` terminator kept by `fgets` falls into the
"any other character" case of the decoder and into the whitespace trim
of the header scan, so lines are modelled without it).
-/

/-- C `isspace`: space, `\t`, `\n`, `\v`, `\f`, `\r`. -/
def c_isspace (c : Char) : Bool :=
  c = ' ' ∨ c = '\t' ∨ c = '\n' ∨ c = '\x0b' ∨ c = '\x0c' ∨ c = '\r'

/-- The header-scan loop of `load_rle`: skip leading whitespace of each
line; a line starting with `#` is a comment and is skipped; a line
containing the substrings `"x"`, `"="` and `"y"` (one character each,
so substring containment is character membership) is the header — stop
after it; any other line is consumed and scanning continues.  Returns
the lines after the header, or `none` when no header is found (the C
code then `rewind`s the file). -/
def findHeader : List (List Char) → Option (List (List Char))
  | [] => none
  | l :: ls =>
    let p := l.dropWhile c_isspace
    if p.head? = some '#' then findHeader ls
    else if 'x' ∈ p ∧ '=' ∈ p ∧ 'y' ∈ p then some ls
    else findHeader ls

/-- The body of the decoder's live-cell write: `grid[gy][gx] = 1` guarded
by `gx >= 0 && gx < GRID_WIDTH && gy >= 0 && gy < GRID_HEIGHT`; an
out-of-bounds position leaves the grid untouched. -/
def setLive (g : Grid) (gy gx : ℤ) : Grid :=
  if InBounds gy gx then
    fun y x => if (y : ℤ) = gy ∧ (x : ℤ) = gx then 1 else g y x
  else g

/-- The `for (int i = 0; i < run; i++)` loop of the `o`/`O` case: emit
`run` cells at `(offset_y + cur_y, offset_x + cur_x)`, `(… , cur_x+1)`,
…, each written only when in bounds; `cur_x` advances once per cell. -/
def stampRun (g : Grid) (offY offX : ℤ) (cy cx : ℕ) : ℕ → Grid
  | 0 => g
  | r + 1 => stampRun (setLive g (offY + cy) (offX + cx)) offY offX cy (cx + 1) r

/-- The inner character loop of the decode pass of `load_rle` over one
line, carrying `(cur_x, cur_y, run)` and returning the updated grid and
state plus the `done` flag set by `!`. -/
def decodeChars (offY offX : ℤ) :
    List Char → Grid → ℕ → ℕ → ℕ → Grid × ℕ × ℕ × ℕ × Bool
  | [], g, cx, cy, run => (g, cx, cy, run, false)
  | c :: cs, g, cx, cy, run =>
    if c.isDigit then
      decodeChars offY offX cs g cx cy (run * 10 + (c.toNat - 48))
    else if c = 'o' ∨ c = 'O' then
      let r := if run = 0 then 1 else run
      decodeChars offY offX cs (stampRun g offY offX cy cx r) (cx + r) cy 0
    else if c = 'b' ∨ c = '.' then
      let r := if run = 0 then 1 else run
      decodeChars offY offX cs g (cx + r) cy 0
    else if c = '$' then
      let r := if run = 0 then 1 else run
      decodeChars offY offX cs g 0 (cy + r) 0
    else if c = '!' then (g, cx, cy, run, true)
    else decodeChars offY offX cs g cx cy run

/-- The outer `while (!done && fgets(...))` loop of the decode pass:
process lines until `!` sets `done` or the lines run out; `cur_x`,
`cur_y` and `run` persist across lines. -/
def decodeLines (offY offX : ℤ) :
    List (List Char) → Grid → ℕ → ℕ → ℕ → Grid
  | [], g, _, _, _ => g
  | l :: ls, g, cx, cy, run =>
    match decodeChars offY offX l g cx cy run with
    | (g', cx', cy', run', done) =>
      if done then g' else decodeLines offY offX ls g' cx' cy' run'

/-- `load_rle` from `src/main.c`.  `src = none` is a file that failed to
open: the function prints an error and returns at once, before the
`clear_before` check and before any cell is written — the grid is
untouched and the result flag is `false` (the success path prints
"Loaded RLE" instead).  Otherwise: scan for the header (rewinding to
the full text when none is found), clear the grid when `clear_before`
is set, and run the decode pass from `cur_x = cur_y = run = 0`.
The header dimensions `pattern_w`/`pattern_h` that `sscanf` extracts
are never read afterwards in the C code (whether or not they parse),
so they do not appear in the model. -/
def load_rle (g : Grid) (offY offX : ℤ) (clear_before : Bool)
    (src : Option (List (List Char))) : Grid × Bool :=
  match src with
  | none => (g, false)
  | some ls =>
    let rest := match findHeader ls with
      | some r => r
      | none => ls
    let g0 := if clear_before then clear_screen else g
    (decodeLines offY offX rest g0 0 0 0, true)

/-!
## Derived notions used to state the claims
-/

/-- The grid is boolean-valued: every cell holds `0` or `1`.  This is
the data-model invariant (`grid` is a matrix of boolean cell states). -/
def BoolGrid (g : Grid) : Prop :=
  ∀ (y : Fin GRID_HEIGHT) (x : Fin GRID_WIDTH), g y x = 0 ∨ g y x = 1

instance (g : Grid) : Decidable (BoolGrid g) := by
  unfold BoolGrid; infer_instance

/-- The 8 Moore-neighbourhood offsets `(dy, dx)`. -/
def mooreOffsets : List (ℤ × ℤ) :=
  [(-1, -1), (-1, 0), (-1, 1), (0, -1), (0, 1), (1, -1), (1, 0), (1, 1)]

/-- The number of live cells among the 8 Moore-neighbourhood positions
of `(y, x)`, every position outside the grid counting as dead
(`getCell` is `0` there). -/
def liveNeighborCount (g : Grid) (y x : ℤ) : ℤ :=
  ((mooreOffsets.countP fun d => decide (getCell g (y + d.1) (x + d.2) ≠ 0) : ℕ) : ℤ)

/-- Grid whose only live cell is the corner `(0, 0)`. -/
def cornerGrid : Grid := fun y x =>
  if (y : ℕ) = 0 ∧ (x : ℕ) = 0 then 1 else 0

/-- The two lines of the glider RLE text
`"x = 3, y = 3\nbo$2bo$3o!"`. -/
def gliderText : List (List Char) :=
  [String.toList "x = 3, y = 3", String.toList "bo$2bo$3o!"]

/-- A 2×2 block of live cells with top-left corner `(y0, x0)`, every
other cell dead. -/
def blockGrid (y0 x0 : ℤ) : Grid := fun y x =>
  if ((y : ℤ) = y0 ∨ (y : ℤ) = y0 + 1) ∧ ((x : ℤ) = x0 ∨ (x : ℤ) = x0 + 1) then 1 else 0

/-- A horizontal 3-cell line centred at `(y0, x0)`, every other cell
dead (a blinker in its horizontal phase). -/
def hlineGrid (y0 x0 : ℤ) : Grid := fun y x =>
  if (y : ℤ) = y0 ∧ ((x : ℤ) = x0 - 1 ∨ (x : ℤ) = x0 ∨ (x : ℤ) = x0 + 1) then 1 else 0

/-- A vertical 3-cell line centred at `(y0, x0)`, every other cell dead
(a blinker in its vertical phase). -/
def vlineGrid (y0 x0 : ℤ) : Grid := fun y x =>
  if ((y : ℤ) = y0 - 1 ∨ (y : ℤ) = y0 ∨ (y : ℤ) = y0 + 1) ∧ (x : ℤ) = x0 then 1 else 0

/-- `0`/`1` indicator of `w ∈ {c}` (one live row/column index). -/
def oneInd (c w : ℤ) : ℤ := if w = c then 1 else 0

/-- `0`/`1` indicator of `w ∈ {c, c + 1}` (two consecutive indices). -/
def twoInd (c w : ℤ) : ℤ := if w = c ∨ w = c + 1 then 1 else 0

/-- `0`/`1` indicator of `w ∈ {c - 1, c, c + 1}` (three consecutive
indices). -/
def threeInd (c w : ℤ) : ℤ := if w = c - 1 ∨ w = c ∨ w = c + 1 then 1 else 0

/-!
## Claims
-/

/-- **C1.** One call to `update_grid` produces the state in which each
in-bounds cell `(x, y)` is live (non-zero) iff either it was live in the
pre-step grid and had exactly 2 or 3 live neighbours, or it was dead and
had exactly 3 live neighbours; the neighbour count is
`count_neighbours` applied to the pre-step grid `g` only (the embedding
is the C two-phase loop: all of `next_grid` is computed from `grid`
before the copy, so no update of one cell is visible to another). -/
theorem update_grid_conway (g : Grid) (y : Fin GRID_HEIGHT) (x : Fin GRID_WIDTH) :
    update_grid g y x ≠ 0 ↔
      ((g y x ≠ 0 ∧ (count_neighbours g y x = 2 ∨ count_neighbours g y x = 3)) ∨
       (g y x = 0 ∧ count_neighbours g y x = 3)) := by
  simp only [update_grid]
  split_ifs with h1 h2 <;> simp_all

/-- On a boolean-valued grid every guarded read yields `0` or `1`. -/
lemma getCell_boolGrid (g : Grid) (hb : BoolGrid g) (y x : ℤ) :
    getCell g y x = 0 ∨ getCell g y x = 1 := by
  unfold getCell
  split_ifs with h
  · exact hb _ _
  · exact Or.inl rfl

/-- `count_neighbours` is the sum of the guarded reads at the 8 Moore
offsets (the centre term of its 3×3 loop is `0`). -/
lemma count_neighbours_eq_sum (g : Grid) (y x : ℤ) :
    count_neighbours g y x
      = (mooreOffsets.map fun d => getCell g (y + d.1) (x + d.2)).sum := by
  simp only [count_neighbours, mooreOffsets, List.map_cons, List.map_nil,
    List.sum_cons, List.sum_nil]
  norm_num
  ring

/-- On a boolean grid a sum of guarded reads counts the live cells. -/
lemma sum_getCell_eq_countP (g : Grid) (hb : BoolGrid g) (y x : ℤ) :
    ∀ l : List (ℤ × ℤ),
      (l.map fun d => getCell g (y + d.1) (x + d.2)).sum
        = ((l.countP fun d => decide (getCell g (y + d.1) (x + d.2) ≠ 0) : ℕ) : ℤ) := by
  intro l
  induction l with
  | nil => rfl
  | cons d t ih =>
    rw [List.map_cons, List.sum_cons, List.countP_cons, ih]
    rcases getCell_boolGrid g hb (y + d.1) (x + d.2) with h | h <;>
      simp only [h, List.countP] <;> push_cast <;> simp <;> ring

/-- **C2.** For every in-bounds cell of a boolean-valued grid,
`count_neighbours` returns an integer in `[0, 8]` equal to the number of
live cells among the 8 Moore-neighbourhood positions, out-of-bounds
positions counting as dead; and on the grid whose only live cell is the
corner `(0, 0)`, `count_neighbours 0 0 = 0` (closed boundary, no
wrap-around). -/
theorem count_neighbours_correct :
    (∀ (g : Grid) (y x : ℤ), BoolGrid g → InBounds y x →
      0 ≤ count_neighbours g y x ∧ count_neighbours g y x ≤ 8 ∧
        count_neighbours g y x = liveNeighborCount g y x) ∧
    count_neighbours cornerGrid 0 0 = 0 := by
  constructor
  · intro g y x hb _
    have hsum : count_neighbours g y x = liveNeighborCount g y x := by
      rw [count_neighbours_eq_sum, liveNeighborCount,
        sum_getCell_eq_countP g hb y x mooreOffsets]
    refine ⟨?_, ?_, hsum⟩
    · rw [hsum]
      unfold liveNeighborCount
      exact_mod_cast Nat.zero_le _
    · rw [hsum]
      unfold liveNeighborCount
      have hle : (mooreOffsets.countP fun d =>
          decide (getCell g (y + d.1) (x + d.2) ≠ 0)) ≤ mooreOffsets.length :=
        List.countP_le_length _
      have h8 : mooreOffsets.length = 8 := rfl
      exact_mod_cast h8 ▸ hle
  · decide

/-- **C2 (witness).** `count_neighbours_correct` at the corner grid and
cell `(0, 0)`. -/
theorem count_neighbours_correct_witness :
    0 ≤ count_neighbours cornerGrid 0 0 ∧ count_neighbours cornerGrid 0 0 ≤ 8 ∧
      count_neighbours cornerGrid 0 0 = liveNeighborCount cornerGrid 0 0 :=
  count_neighbours_correct.1 cornerGrid 0 0 (by decide) (by decide)

/-- **C3 (counterexample).** The claim "toggle on an out-of-bounds
coordinate leaves the grid completely unchanged" is false at
`(x, y) = (-1, -1)`: the toggle is an unchecked array access there, so
it does not return the unchanged grid (it has no defined result at
all). -/
theorem toggle_cell_oob_counterexample :
    ¬ (toggle_cell clear_screen (-1) (-1) = some clear_screen ∧
       toggle_cell clear_screen 27 30 = some clear_screen) := by
  decide

/-- An in-bounds toggle flips exactly cell `(y, x)` (writes `lnot` of
its value) and leaves every other cell alone. -/
lemma toggle_cell_inb (g : Grid) (y x : ℤ) (h : InBounds y x) :
    toggle_cell g y x = some (flipAt g y x) := by
  have hyb : y.toNat < GRID_HEIGHT := by unfold InBounds at h; omega
  have hxb : x.toNat < GRID_WIDTH := by unfold InBounds at h; omega
  unfold toggle_cell readCell writeCell
  rw [dif_pos h, Option.some_bind, if_pos h]
  congr 1
  funext y' x'
  unfold flipAt
  by_cases hc : (y' : ℤ) = y ∧ (x' : ℤ) = x
  · rw [if_pos hc, if_pos hc]
    have e1 : (⟨y.toNat, hyb⟩ : Fin GRID_HEIGHT) = y' :=
      Fin.ext (show y.toNat = (y' : ℕ) by unfold InBounds at h; omega)
    have e2 : (⟨x.toNat, hxb⟩ : Fin GRID_WIDTH) = x' :=
      Fin.ext (show x.toNat = (x' : ℕ) by unfold InBounds at h; omega)
    rw [e1, e2]
  · rw [if_neg hc, if_neg hc]

/-- An out-of-bounds toggle is an unchecked out-of-bounds array access:
it has no defined result. -/
lemma toggle_cell_notinb (g : Grid) (y x : ℤ) (h : ¬ InBounds y x) :
    toggle_cell g y x = none := by
  unfold toggle_cell readCell
  rw [dif_neg h, Option.none_bind]

/-- **C3 (amended).** The mouse-click toggle in `game_events` flips the
cell (writes the C logical negation of its value) when `(y, x)` is in
bounds; the C code performs **no** bounds check, so for an out-of-bounds
coordinate such as `(-1, -1)` or `(W, H)` the access
`grid[y][x] = !(grid[y][x])` is out of the array's bounds and has no
defined result (`none`) — it is not a guaranteed no-op. -/
theorem toggle_cell_spec (g : Grid) (y x : ℤ) :
    (InBounds y x → toggle_cell g y x = some (flipAt g y x)) ∧
    (¬ InBounds y x → toggle_cell g y x = none) :=
  ⟨toggle_cell_inb g y x, toggle_cell_notinb g y x⟩

/-- **C3 (witness).** `toggle_cell_spec` at the in-bounds input `(0,0)`
and the out-of-bounds input `(-1,-1)`. -/
theorem toggle_cell_spec_witness :
    toggle_cell clear_screen 0 0 = some (flipAt clear_screen 0 0) ∧
    toggle_cell clear_screen (-1) (-1) = none :=
  ⟨(toggle_cell_spec clear_screen 0 0).1 (by decide),
   (toggle_cell_spec clear_screen (-1) (-1)).2 (by decide)⟩

set_option maxHeartbeats 1000000 in
/-- Evaluating the glider load: the decode pass emits exactly the five
cells `(y, x) = (0,1), (1,2), (2,0), (2,1), (2,2)` onto the clear grid. -/
lemma glider_load_eval :
    (load_rle clear_screen 0 0 false (some gliderText)).1
      = setLive (setLive (setLive (setLive (setLive clear_screen 0 1) 1 2) 2 0) 2 1) 2 2 := by
  rfl

set_option maxHeartbeats 1000000 in
/-- **C4.** Loading `"x = 3, y = 3\nbo$2bo$3o!"` at offset `(0, 0)` into
the all-dead grid makes exactly the cells
`{(1,0), (2,1), (0,2), (1,2), (2,2)}` (as `(x, y)` pairs) live and no
others, and loading the same text a second time with
`clear_before = true` yields exactly the same grid. -/
theorem load_rle_glider :
    (∀ (y : Fin GRID_HEIGHT) (x : Fin GRID_WIDTH),
      (load_rle clear_screen 0 0 false (some gliderText)).1 y x ≠ 0 ↔
        ((x : ℕ), (y : ℕ)) ∈ [(1, 0), (2, 1), (0, 2), (1, 2), (2, 2)]) ∧
    (load_rle (load_rle clear_screen 0 0 false (some gliderText)).1
        0 0 true (some gliderText)).1
      = (load_rle clear_screen 0 0 false (some gliderText)).1 := by
  rw [glider_load_eval]
  constructor
  · decide
  · rfl

/-- **C5.** A source that cannot be opened (`none`) makes `load_rle`
return the prior grid exactly, with the failure flag, before any
`clear_screen` or cell write; the flag is distinct from the one every
successful load returns. -/
theorem load_rle_unreadable_isolated :
    (∀ (g : Grid) (offY offX : ℤ) (cb : Bool),
      load_rle g offY offX cb none = (g, false)) ∧
    (∀ (g : Grid) (offY offX : ℤ) (cb : Bool) (ls : List (List Char)),
      (load_rle g offY offX cb (some ls)).2 = true) := by
  exact ⟨fun _ _ _ _ => rfl, fun _ _ _ _ _ => rfl⟩

/-- Pointwise value of `setLive`: the in-bounds target cell becomes `1`;
every other in-bounds cell is untouched (an out-of-bounds target matches
no in-bounds cell, so the grid is untouched entirely). -/
lemma setLive_eval (g : Grid) (gy gx : ℤ) (y : Fin GRID_HEIGHT) (x : Fin GRID_WIDTH) :
    setLive g gy gx y x = if (y : ℤ) = gy ∧ (x : ℤ) = gx then 1 else g y x := by
  unfold setLive
  by_cases hb : InBounds gy gx
  · rw [if_pos hb]
  · rw [if_neg hb]
    by_cases hc : (y : ℤ) = gy ∧ (x : ℤ) = gx
    · exfalso
      apply hb
      obtain ⟨hcy, hcx⟩ := hc
      have h1 : (y : ℕ) < GRID_HEIGHT := y.isLt
      have h2 : (x : ℕ) < GRID_WIDTH := x.isLt
      unfold InBounds
      omega
    · rw [if_neg hc]

/-- Pointwise value of `stampRun`: cell `(y, x)` is `1` when it is one of
the `r` targeted positions `(offY + cy, offX + cx + i)`, `0 ≤ i < r`,
and keeps its prior value otherwise. -/
lemma stampRun_eval :
    ∀ (r : ℕ) (g : Grid) (offY offX : ℤ) (cy cx : ℕ)
      (y : Fin GRID_HEIGHT) (x : Fin GRID_WIDTH),
      stampRun g offY offX cy cx r y x =
        if (y : ℤ) = offY + cy ∧ offX + cx ≤ (x : ℤ) ∧ (x : ℤ) < offX + cx + r then 1
        else g y x := by
  intro r
  induction r with
  | zero =>
    intro g offY offX cy cx y x
    rw [stampRun, if_neg]
    omega
  | succ n ih =>
    intro g offY offX cy cx y x
    rw [stampRun, ih, setLive_eval]
    push_cast
    split_ifs <;> first | rfl | omega

/-- **C8.** During RLE decoding, live-cell emission writes only at the
absolute positions `(offset_y + cur_y, offset_x + cur_x + i)` that lie
within grid bounds: an out-of-bounds `setLive` is the identity on the
grid, a `stampRun` leaves every cell other than its in-bounds targets
unchanged and makes every in-bounds target `1` (no clipping or
wrapping), and the `o`/`O` step of the decoder advances the cursor by
the full run and continues with the rest of the input regardless of
which of those cells were dropped. -/
theorem rle_oob_cells_dropped :
    (∀ (g : Grid) (gy gx : ℤ), ¬ InBounds gy gx → setLive g gy gx = g) ∧
    (∀ (g : Grid) (offY offX : ℤ) (cy cx r : ℕ)
        (y : Fin GRID_HEIGHT) (x : Fin GRID_WIDTH),
      (y : ℤ) = offY + cy ∧ offX + cx ≤ (x : ℤ) ∧ (x : ℤ) < offX + cx + r →
        stampRun g offY offX cy cx r y x = 1) ∧
    (∀ (g : Grid) (offY offX : ℤ) (cy cx r : ℕ)
        (y : Fin GRID_HEIGHT) (x : Fin GRID_WIDTH),
      ¬ ((y : ℤ) = offY + cy ∧ offX + cx ≤ (x : ℤ) ∧ (x : ℤ) < offX + cx + r) →
        stampRun g offY offX cy cx r y x = g y x) ∧
    (∀ (offY offX : ℤ) (cs : List Char) (g : Grid) (cx cy run : ℕ),
      decodeChars offY offX ('o' :: cs) g cx cy run =
        decodeChars offY offX cs
          (stampRun g offY offX cy cx (if run = 0 then 1 else run))
          (cx + (if run = 0 then 1 else run)) cy 0) := by
  refine ⟨?_, ?_, ?_, ?_⟩
  · intro g gy gx h
    unfold setLive
    rw [if_neg h]
  · intro g offY offX cy cx r y x h
    rw [stampRun_eval, if_pos h]
  · intro g offY offX cy cx r y x h
    rw [stampRun_eval, if_neg h]
  · intro offY offX cs g cx cy run
    rfl

/-- **C8 (witness).** `rle_oob_cells_dropped` at concrete inputs: the
out-of-bounds write at `(-1, 0)` is dropped; a run of 4 starting at
column `-3` (offset `(0, -3)`) makes the in-bounds cell `(0, 0)` live,
leaves cell `(0, 5)` alone, and the decoder step still advances the
cursor past all 4 cells. -/
theorem rle_oob_cells_dropped_witness :
    setLive clear_screen (-1) 0 = clear_screen ∧
    stampRun clear_screen 0 (-3) 0 0 4 ⟨0, by decide⟩ ⟨0, by decide⟩ = 1 ∧
    stampRun clear_screen 0 (-3) 0 0 4 ⟨0, by decide⟩ ⟨5, by decide⟩
      = clear_screen ⟨0, by decide⟩ ⟨5, by decide⟩ ∧
    decodeChars 0 (-3) ['o', '!'] clear_screen 0 0 4 =
      decodeChars 0 (-3) ['!'] (stampRun clear_screen 0 (-3) 0 0
        (if 4 = 0 then 1 else 4)) (0 + (if 4 = 0 then 1 else 4)) 0 0 :=
  ⟨rle_oob_cells_dropped.1 clear_screen (-1) 0 (by decide),
   rle_oob_cells_dropped.2.1 clear_screen 0 (-3) 0 0 4 _ _ (by decide),
   rle_oob_cells_dropped.2.2.1 clear_screen 0 (-3) 0 0 4 _ _ (by decide),
   rle_oob_cells_dropped.2.2.2 0 (-3) ['!'] clear_screen 0 0 4⟩

/-- **C9.** Header handling of `load_rle`:
(1) when no line of the source is a header line (every line is either a
`#` comment after leading whitespace, or lacks one of the substrings
`"x"`, `"="`, `"y"`), the header scan finds nothing;
(2) in that case the position is rewound and the decode pass scans the
*entire* text;
(3) when a (non-comment) line containing `"x"`, `"="` and `"y"` is
found, the decode pass proceeds over the remaining lines no matter what
the line's dimensions look like — `sscanf`'s `pattern_w`/`pattern_h`
are never used, so a header whose dimensions fail to parse costs
nothing but the informational width/height. -/
theorem rle_header_policy :
    (∀ ls : List (List Char),
      (∀ l ∈ ls, ((l.dropWhile c_isspace).head? = some '#') ∨
        ¬ ('x' ∈ l.dropWhile c_isspace ∧ '=' ∈ l.dropWhile c_isspace ∧
            'y' ∈ l.dropWhile c_isspace)) →
      findHeader ls = none) ∧
    (∀ (g : Grid) (offY offX : ℤ) (cb : Bool) (ls : List (List Char)),
      findHeader ls = none →
      load_rle g offY offX cb (some ls) =
        (decodeLines offY offX ls (if cb then clear_screen else g) 0 0 0, true)) ∧
    (∀ (g : Grid) (offY offX : ℤ) (cb : Bool) (l : List Char)
        (rest : List (List Char)),
      (l.dropWhile c_isspace).head? ≠ some '#' →
      ('x' ∈ l.dropWhile c_isspace ∧ '=' ∈ l.dropWhile c_isspace ∧
        'y' ∈ l.dropWhile c_isspace) →
      load_rle g offY offX cb (some (l :: rest)) =
        (decodeLines offY offX rest (if cb then clear_screen else g) 0 0 0, true)) := by
  refine ⟨?_, ?_, ?_⟩
  · intro ls
    induction ls with
    | nil => intro _; rfl
    | cons l t ih =>
      intro h
      have hl := h l (List.mem_cons_self l t)
      have ht : findHeader t = none :=
        ih fun l' hl' => h l' (List.mem_cons_of_mem l hl')
      rw [findHeader]
      rcases hl with hc | hnx
      · rw [if_pos hc]
        exact ht
      · by_cases hc : (l.dropWhile c_isspace).head? = some '#'
        · rw [if_pos hc]
          exact ht
        · rw [if_neg hc, if_neg hnx]
          exact ht
  · intro g offY offX cb ls h
    simp only [load_rle, h]
  · intro g offY offX cb l rest hc hm
    have hf : findHeader (l :: rest) = some rest := by
      rw [findHeader, if_neg hc, if_pos hm]
    simp only [load_rle, hf]

/-- **C9 (witness).** `rle_header_policy` at concrete inputs: a source
whose lines are a comment and a data line has no header, so the decode
pass scans it whole; a source opening with the malformed header
`"x = ?, y = ?"` still decodes its remaining line. -/
theorem rle_header_policy_witness :
    findHeader [String.toList "# comment", String.toList "o!"] = none ∧
    load_rle clear_screen 0 0 false
        (some [String.toList "# comment", String.toList "o!"]) =
      (decodeLines 0 0 [String.toList "# comment", String.toList "o!"]
        (if false then clear_screen else clear_screen) 0 0 0, true) ∧
    load_rle clear_screen 0 0 false
        (some [String.toList "x = ?, y = ?", String.toList "o!"]) =
      (decodeLines 0 0 [String.toList "o!"]
        (if false then clear_screen else clear_screen) 0 0 0, true) := by
  refine ⟨rle_header_policy.1 _ (by decide), ?_, ?_⟩
  · exact rle_header_policy.2.1 clear_screen 0 0 false _
      (rle_header_policy.1 _ (by decide))
  · exact rle_header_policy.2.2 clear_screen 0 0 false _ _ (by decide) (by decide)

/-- `setLive` preserves boolean-valued grids. -/
lemma boolGrid_setLive (g : Grid) (hb : BoolGrid g) (gy gx : ℤ) :
    BoolGrid (setLive g gy gx) := by
  intro y x
  rw [setLive_eval]
  split_ifs
  · exact Or.inr rfl
  · exact hb y x

/-- `stampRun` preserves boolean-valued grids. -/
lemma boolGrid_stampRun (offY offX : ℤ) (cy : ℕ) :
    ∀ (r : ℕ) (g : Grid) (cx : ℕ), BoolGrid g →
      BoolGrid (stampRun g offY offX cy cx r) := by
  intro r
  induction r with
  | zero => intro g cx hb; exact hb
  | succ n ih =>
    intro g cx hb
    rw [stampRun]
    exact ih _ _ (boolGrid_setLive g hb _ _)

/-- The character-decode loop preserves boolean-valued grids. -/
lemma boolGrid_decodeChars (offY offX : ℤ) :
    ∀ (cs : List Char) (g : Grid) (cx cy run : ℕ), BoolGrid g →
      BoolGrid (decodeChars offY offX cs g cx cy run).1 := by
  intro cs
  induction cs with
  | nil => intro g cx cy run hb; exact hb
  | cons c t ih =>
    intro g cx cy run hb
    rw [decodeChars]
    split_ifs <;>
      first
        | exact hb
        | exact ih _ _ _ _ hb
        | exact ih _ _ _ _ (boolGrid_stampRun offY offX cy _ _ _ hb)

/-- The line-decode loop preserves boolean-valued grids. -/
lemma boolGrid_decodeLines (offY offX : ℤ) :
    ∀ (ls : List (List Char)) (g : Grid) (cx cy run : ℕ), BoolGrid g →
      BoolGrid (decodeLines offY offX ls g cx cy run) := by
  intro ls
  induction ls with
  | nil => intro g cx cy run hb; exact hb
  | cons l t ih =>
    intro g cx cy run hb
    have hc := boolGrid_decodeChars offY offX l g cx cy run hb
    rw [decodeLines]
    rcases hdc : decodeChars offY offX l g cx cy run with ⟨g', cx', cy', run', d⟩
    rw [hdc] at hc
    cases d
    · exact ih g' cx' cy' run' hc
    · exact hc

/-- `lnot` always yields `0` or `1`. -/
lemma lnot_boolean (v : ℤ) : lnot v = 0 ∨ lnot v = 1 := by
  unfold lnot
  split_ifs
  · exact Or.inr rfl
  · exact Or.inl rfl

/-- **C10.** Every cell of the grid always holds exactly `0` or `1`:
`clear_screen` (writes `0`), `grid_randomize` (writes `rand() % 2`),
`update_grid` (writes a `0`/`1` comparison result), a full `load_rle`
(only ever writes `1` into a boolean grid), and the in-bounds cell
toggle (writes the C logical negation) each produce a boolean-valued
grid. -/
theorem cells_always_boolean :
    BoolGrid clear_screen ∧
    (∀ r : ℕ → ℕ, BoolGrid (grid_randomize r)) ∧
    (∀ g : Grid, BoolGrid (update_grid g)) ∧
    (∀ (g : Grid) (offY offX : ℤ) (cb : Bool) (src : Option (List (List Char))),
      BoolGrid g → BoolGrid (load_rle g offY offX cb src).1) ∧
    (∀ (g : Grid) (y x : ℤ) (g' : Grid),
      BoolGrid g → toggle_cell g y x = some g' → BoolGrid g') := by
  refine ⟨?_, ?_, ?_, ?_, ?_⟩
  · intro y x
    exact Or.inl rfl
  · intro r y x
    unfold grid_randomize
    rcases Nat.mod_two_eq_zero_or_one (r (y * GRID_WIDTH + x)) with h | h <;>
      rw [h]
    · exact Or.inl rfl
    · exact Or.inr rfl
  · intro g y x
    simp only [update_grid]
    split_ifs <;> first | exact Or.inl rfl | exact Or.inr rfl
  · intro g offY offX cb src hb
    unfold load_rle
    rcases src with _ | ls
    · exact hb
    · refine boolGrid_decodeLines offY offX _ _ 0 0 0 ?_
      split_ifs
      · intro y x; exact Or.inl rfl
      · exact hb
  · intro g y x g' hb htog
    by_cases h : InBounds y x
    · rw [toggle_cell_inb g y x h] at htog
      obtain rfl : flipAt g y x = g' := Option.some_injective _ htog
      intro y' x'
      unfold flipAt
      split_ifs
      · exact lnot_boolean _
      · exact hb y' x'
    · rw [toggle_cell_notinb g y x h] at htog
      exact absurd htog (by simp)

/-- **C10 (witness).** `cells_always_boolean` applied at concrete
inputs: a failed load on the clear grid and an in-bounds toggle of the
clear grid both yield boolean grids. -/
theorem cells_always_boolean_witness :
    BoolGrid (load_rle clear_screen 0 0 false none).1 ∧
    BoolGrid (flipAt clear_screen 0 0) :=
  ⟨cells_always_boolean.2.2.2.1 clear_screen 0 0 false none (by decide),
   cells_always_boolean.2.2.2.2 clear_screen 0 0 (flipAt clear_screen 0 0)
     (by decide) (toggle_cell_inb clear_screen 0 0 (by decide))⟩

/-- `count_neighbours` written out as the 8 guarded neighbour reads. -/
lemma count_eq_explicit (g : Grid) (u v : ℤ) :
    count_neighbours g u v =
      getCell g (u - 1) (v - 1) + getCell g (u - 1) v + getCell g (u - 1) (v + 1) +
      getCell g u (v - 1) + getCell g u (v + 1) +
      getCell g (u + 1) (v - 1) + getCell g (u + 1) v + getCell g (u + 1) (v + 1) := by
  simp only [count_neighbours, List.map_cons, List.map_nil, List.sum_cons, List.sum_nil]
  norm_num
  ring

/-- An indicator of a conjunction is the product of the indicators. -/
lemma ite_and_one (p q : Prop) [Decidable p] [Decidable q] :
    (if p ∧ q then (1 : ℤ) else 0) =
      (if p then (1 : ℤ) else 0) * (if q then (1 : ℤ) else 0) := by
  split_ifs <;> simp_all

lemma oneInd_pos (c w : ℤ) (h : w = c) : oneInd c w = 1 := by
  unfold oneInd; exact if_pos h

lemma oneInd_neg (c w : ℤ) (h : ¬ w = c) : oneInd c w = 0 := by
  unfold oneInd; exact if_neg h

lemma twoInd_pos (c w : ℤ) (h : w = c ∨ w = c + 1) : twoInd c w = 1 := by
  unfold twoInd; exact if_pos h

lemma twoInd_neg (c w : ℤ) (h : ¬ (w = c ∨ w = c + 1)) : twoInd c w = 0 := by
  unfold twoInd; exact if_neg h

lemma threeInd_pos (c w : ℤ) (h : w = c - 1 ∨ w = c ∨ w = c + 1) : threeInd c w = 1 := by
  unfold threeInd; exact if_pos h

lemma threeInd_neg (c w : ℤ) (h : ¬ (w = c - 1 ∨ w = c ∨ w = c + 1)) : threeInd c w = 0 := by
  unfold threeInd; exact if_neg h

/-- A window of three `twoInd` indicators sums to `0`, `1` or `2`. -/
lemma twoInd_sum_cases (c u : ℤ) :
    twoInd c (u - 1) + twoInd c u + twoInd c (u + 1) = 0 ∨
    twoInd c (u - 1) + twoInd c u + twoInd c (u + 1) = 1 ∨
    twoInd c (u - 1) + twoInd c u + twoInd c (u + 1) = 2 := by
  unfold twoInd; split_ifs <;> omega

/-- At a member index, the three-window of `twoInd` sums to `2`. -/
lemma twoInd_center (c u : ℤ) (h : u = c ∨ u = c + 1) :
    twoInd c (u - 1) + twoInd c u + twoInd c (u + 1) = 2 := by
  unfold twoInd; split_ifs <;> omega

/-- A product of two factors each in `{0, 1, 2}` is never `3`. -/
lemma prod_ne_three (a b : ℤ) (ha : a = 0 ∨ a = 1 ∨ a = 2)
    (hb : b = 0 ∨ b = 1 ∨ b = 2) : a * b ≠ 3 := by
  rcases ha with rfl | rfl | rfl <;> rcases hb with rfl | rfl | rfl <;> norm_num

/-- Guarded reads of a 2×2 block that sits (with its whole
neighbourhood) inside the grid: the value is the block-membership
indicator at every integer coordinate. -/
lemma getCell_blockGrid (y0 x0 : ℤ)
    (h1 : 1 ≤ y0) (h2 : y0 + 2 < GRID_HEIGHT) (h3 : 1 ≤ x0) (h4 : x0 + 2 < GRID_WIDTH)
    (u v : ℤ) :
    getCell (blockGrid y0 x0) u v =
      if (u = y0 ∨ u = y0 + 1) ∧ (v = x0 ∨ v = x0 + 1) then 1 else 0 := by
  unfold getCell
  by_cases hb : InBounds u v
  · rw [dif_pos hb]
    unfold InBounds at hb
    unfold blockGrid
    simp only [Fin.val_mk]
    rw [Int.toNat_of_nonneg hb.1, Int.toNat_of_nonneg hb.2.2.1]
  · rw [dif_neg hb]
    unfold InBounds at hb
    rw [if_neg]
    intro hc
    exact hb (by omega)

/-- Guarded block reads factor into row and column indicators. -/
lemma getCell_blockGrid_mul (y0 x0 : ℤ)
    (h1 : 1 ≤ y0) (h2 : y0 + 2 < GRID_HEIGHT) (h3 : 1 ≤ x0) (h4 : x0 + 2 < GRID_WIDTH)
    (u v : ℤ) :
    getCell (blockGrid y0 x0) u v = twoInd y0 u * twoInd x0 v := by
  rw [getCell_blockGrid y0 x0 h1 h2 h3 h4, ite_and_one]
  rfl

/-- The neighbour count of the block factorises: 3×3 window row-sum
times column-sum, minus the centre cell. -/
lemma count_blockGrid (y0 x0 : ℤ)
    (h1 : 1 ≤ y0) (h2 : y0 + 2 < GRID_HEIGHT) (h3 : 1 ≤ x0) (h4 : x0 + 2 < GRID_WIDTH)
    (u v : ℤ) :
    count_neighbours (blockGrid y0 x0) u v =
      (twoInd y0 (u - 1) + twoInd y0 u + twoInd y0 (u + 1)) *
        (twoInd x0 (v - 1) + twoInd x0 v + twoInd x0 (v + 1)) -
      twoInd y0 u * twoInd x0 v := by
  rw [count_eq_explicit]
  simp only [getCell_blockGrid_mul y0 x0 h1 h2 h3 h4]
  ring

/-- **C6.** A 2×2 block of live cells whose cells and all their
neighbours are in bounds, with every other cell dead, is left unchanged
by one `update_grid` step (the block is a still life). -/
theorem block_still_life (y0 x0 : ℤ)
    (h : 1 ≤ y0 ∧ y0 + 2 < GRID_HEIGHT ∧ 1 ≤ x0 ∧ x0 + 2 < GRID_WIDTH) :
    update_grid (blockGrid y0 x0) = blockGrid y0 x0 := by
  obtain ⟨h1, h2, h3, h4⟩ := h
  funext y x
  simp only [update_grid]
  by_cases hy0 : ((y : ℤ) = y0 ∨ (y : ℤ) = y0 + 1)
  · by_cases hx0 : ((x : ℤ) = x0 ∨ (x : ℤ) = x0 + 1)
    · have hC : count_neighbours (blockGrid y0 x0) (y : ℤ) (x : ℤ) = 3 := by
        rw [count_blockGrid y0 x0 h1 h2 h3 h4,
          twoInd_center y0 _ hy0, twoInd_center x0 _ hx0,
          twoInd_pos y0 _ hy0, twoInd_pos x0 _ hx0]
        norm_num
      have hB : blockGrid y0 x0 y x = 1 := by
        unfold blockGrid
        exact if_pos ⟨hy0, hx0⟩
      rw [hC, hB]
      norm_num
    · have hz : twoInd y0 (y : ℤ) * twoInd x0 (x : ℤ) = 0 := by
        rw [twoInd_neg x0 _ hx0]
        ring
      have hC : count_neighbours (blockGrid y0 x0) (y : ℤ) (x : ℤ) ≠ 3 := by
        rw [count_blockGrid y0 x0 h1 h2 h3 h4, hz, sub_zero]
        exact prod_ne_three _ _ (twoInd_sum_cases y0 _) (twoInd_sum_cases x0 _)
      have hB : blockGrid y0 x0 y x = 0 := by
        unfold blockGrid
        exact if_neg fun hc => hx0 hc.2
      rw [hB]
      simp [hC]
  · have hz : twoInd y0 (y : ℤ) * twoInd x0 (x : ℤ) = 0 := by
      rw [twoInd_neg y0 _ hy0]
      ring
    have hC : count_neighbours (blockGrid y0 x0) (y : ℤ) (x : ℤ) ≠ 3 := by
      rw [count_blockGrid y0 x0 h1 h2 h3 h4, hz, sub_zero]
      exact prod_ne_three _ _ (twoInd_sum_cases y0 _) (twoInd_sum_cases x0 _)
    have hB : blockGrid y0 x0 y x = 0 := by
      unfold blockGrid
      exact if_neg fun hc => hy0 hc.1
    rw [hB]
    simp [hC]

/-- **C6 (witness).** `block_still_life` for the block whose top-left
live cell is `(y, x) = (3, 4)`. -/
theorem block_still_life_witness :
    update_grid (blockGrid 3 4) = blockGrid 3 4 :=
  block_still_life 3 4 (by decide)

/-- A three-window of `oneInd` indicators is the `threeInd` indicator. -/
lemma oneInd_sum (c u : ℤ) :
    oneInd c (u - 1) + oneInd c u + oneInd c (u + 1) = threeInd c u := by
  unfold oneInd threeInd; split_ifs <;> omega

/-- At the centre index the three-window of `threeInd` sums to `3`. -/
lemma threeInd_sum_center (c v : ℤ) (h : v = c) :
    threeInd c (v - 1) + threeInd c v + threeInd c (v + 1) = 3 := by
  unfold threeInd; split_ifs <;> omega

/-- One step off centre the three-window of `threeInd` sums to `2`. -/
lemma threeInd_sum_adj (c v : ℤ) (h : v = c - 1 ∨ v = c + 1) :
    threeInd c (v - 1) + threeInd c v + threeInd c (v + 1) = 2 := by
  unfold threeInd; split_ifs <;> omega

/-- Away from the centre the three-window of `threeInd` never sums
to `3`. -/
lemma threeInd_sum_ne3 (c v : ℤ) (h : ¬ v = c) :
    threeInd c (v - 1) + threeInd c v + threeInd c (v + 1) ≠ 3 := by
  unfold threeInd; split_ifs <;> omega

lemma threeInd_values (c w : ℤ) : threeInd c w = 0 ∨ threeInd c w = 1 := by
  unfold threeInd; split_ifs <;> omega

lemma threeInd_eq_one (c w : ℤ) (h : threeInd c w = 1) :
    w = c - 1 ∨ w = c ∨ w = c + 1 := by
  unfold threeInd at h
  by_contra hc
  rw [if_neg hc] at h
  norm_num at h

/-- Guarded reads of a horizontal 3-cell line that sits (with its whole
neighbourhood, and that of its rotation) inside the grid. -/
lemma getCell_hlineGrid (y0 x0 : ℤ)
    (h1 : 2 ≤ y0) (h2 : y0 + 2 < GRID_HEIGHT) (h3 : 2 ≤ x0) (h4 : x0 + 2 < GRID_WIDTH)
    (u v : ℤ) :
    getCell (hlineGrid y0 x0) u v =
      if u = y0 ∧ (v = x0 - 1 ∨ v = x0 ∨ v = x0 + 1) then 1 else 0 := by
  unfold getCell
  by_cases hb : InBounds u v
  · rw [dif_pos hb]
    unfold InBounds at hb
    unfold hlineGrid
    simp only [Fin.val_mk]
    rw [Int.toNat_of_nonneg hb.1, Int.toNat_of_nonneg hb.2.2.1]
  · rw [dif_neg hb]
    unfold InBounds at hb
    rw [if_neg]
    intro hc
    exact hb (by omega)

/-- Guarded horizontal-line reads factor into row and column
indicators. -/
lemma getCell_hlineGrid_mul (y0 x0 : ℤ)
    (h1 : 2 ≤ y0) (h2 : y0 + 2 < GRID_HEIGHT) (h3 : 2 ≤ x0) (h4 : x0 + 2 < GRID_WIDTH)
    (u v : ℤ) :
    getCell (hlineGrid y0 x0) u v = oneInd y0 u * threeInd x0 v := by
  rw [getCell_hlineGrid y0 x0 h1 h2 h3 h4, ite_and_one]
  rfl

/-- Neighbour count of the horizontal line, factorised. -/
lemma count_hlineGrid (y0 x0 : ℤ)
    (h1 : 2 ≤ y0) (h2 : y0 + 2 < GRID_HEIGHT) (h3 : 2 ≤ x0) (h4 : x0 + 2 < GRID_WIDTH)
    (u v : ℤ) :
    count_neighbours (hlineGrid y0 x0) u v =
      threeInd y0 u *
        (threeInd x0 (v - 1) + threeInd x0 v + threeInd x0 (v + 1)) -
      oneInd y0 u * threeInd x0 v := by
  rw [count_eq_explicit]
  simp only [getCell_hlineGrid_mul y0 x0 h1 h2 h3 h4]
  rw [← oneInd_sum y0 u]
  ring

/-- Guarded reads of a vertical 3-cell line that sits (with its whole
neighbourhood, and that of its rotation) inside the grid. -/
lemma getCell_vlineGrid (y0 x0 : ℤ)
    (h1 : 2 ≤ y0) (h2 : y0 + 2 < GRID_HEIGHT) (h3 : 2 ≤ x0) (h4 : x0 + 2 < GRID_WIDTH)
    (u v : ℤ) :
    getCell (vlineGrid y0 x0) u v =
      if (u = y0 - 1 ∨ u = y0 ∨ u = y0 + 1) ∧ v = x0 then 1 else 0 := by
  unfold getCell
  by_cases hb : InBounds u v
  · rw [dif_pos hb]
    unfold InBounds at hb
    unfold vlineGrid
    simp only [Fin.val_mk]
    rw [Int.toNat_of_nonneg hb.1, Int.toNat_of_nonneg hb.2.2.1]
  · rw [dif_neg hb]
    unfold InBounds at hb
    rw [if_neg]
    intro hc
    exact hb (by omega)

/-- Guarded vertical-line reads factor into row and column
indicators. -/
lemma getCell_vlineGrid_mul (y0 x0 : ℤ)
    (h1 : 2 ≤ y0) (h2 : y0 + 2 < GRID_HEIGHT) (h3 : 2 ≤ x0) (h4 : x0 + 2 < GRID_WIDTH)
    (u v : ℤ) :
    getCell (vlineGrid y0 x0) u v = threeInd y0 u * oneInd x0 v := by
  rw [getCell_vlineGrid y0 x0 h1 h2 h3 h4, ite_and_one]
  rfl

/-- Neighbour count of the vertical line, factorised. -/
lemma count_vlineGrid (y0 x0 : ℤ)
    (h1 : 2 ≤ y0) (h2 : y0 + 2 < GRID_HEIGHT) (h3 : 2 ≤ x0) (h4 : x0 + 2 < GRID_WIDTH)
    (u v : ℤ) :
    count_neighbours (vlineGrid y0 x0) u v =
      (threeInd y0 (u - 1) + threeInd y0 u + threeInd y0 (u + 1)) *
        threeInd x0 v -
      threeInd y0 u * oneInd x0 v := by
  rw [count_eq_explicit]
  simp only [getCell_vlineGrid_mul y0 x0 h1 h2 h3 h4]
  rw [← oneInd_sum x0 v]
  ring

/-- One step turns the horizontal blinker phase into the vertical one. -/
lemma blinker_h_to_v (y0 x0 : ℤ)
    (h1 : 2 ≤ y0) (h2 : y0 + 2 < GRID_HEIGHT) (h3 : 2 ≤ x0) (h4 : x0 + 2 < GRID_WIDTH) :
    update_grid (hlineGrid y0 x0) = vlineGrid y0 x0 := by
  funext y x
  simp only [update_grid]
  by_cases hlive : (y : ℤ) = y0 ∧ ((x : ℤ) = x0 - 1 ∨ (x : ℤ) = x0 ∨ (x : ℤ) = x0 + 1)
  · have hL : hlineGrid y0 x0 y x = 1 := by
      unfold hlineGrid; exact if_pos hlive
    by_cases hx0 : (x : ℤ) = x0
    · have hC : count_neighbours (hlineGrid y0 x0) (y : ℤ) (x : ℤ) = 2 := by
        rw [count_hlineGrid y0 x0 h1 h2 h3 h4,
          threeInd_sum_center x0 _ hx0,
          threeInd_pos y0 _ (Or.inr (Or.inl hlive.1)),
          oneInd_pos y0 _ hlive.1,
          threeInd_pos x0 _ (Or.inr (Or.inl hx0))]
        norm_num
      have hR : vlineGrid y0 x0 y x = 1 := by
        unfold vlineGrid; exact if_pos ⟨Or.inr (Or.inl hlive.1), hx0⟩
      rw [hL, hC, hR]
      norm_num
    · have hadj : (x : ℤ) = x0 - 1 ∨ (x : ℤ) = x0 + 1 := by
        rcases hlive.2 with h | h | h
        · exact Or.inl h
        · exact absurd h hx0
        · exact Or.inr h
      have hC : count_neighbours (hlineGrid y0 x0) (y : ℤ) (x : ℤ) = 1 := by
        rw [count_hlineGrid y0 x0 h1 h2 h3 h4,
          threeInd_sum_adj x0 _ hadj,
          threeInd_pos y0 _ (Or.inr (Or.inl hlive.1)),
          oneInd_pos y0 _ hlive.1,
          threeInd_pos x0 _ hlive.2]
        norm_num
      have hR : vlineGrid y0 x0 y x = 0 := by
        unfold vlineGrid; exact if_neg fun hc => hx0 hc.2
      rw [hL, hC, hR]
      norm_num
  · have hL : hlineGrid y0 x0 y x = 0 := by
      unfold hlineGrid; exact if_neg hlive
    have hz : oneInd y0 (y : ℤ) * threeInd x0 (x : ℤ) = 0 := by
      by_cases hy : (y : ℤ) = y0
      · have hx3 : ¬ ((x : ℤ) = x0 - 1 ∨ (x : ℤ) = x0 ∨ (x : ℤ) = x0 + 1) :=
          fun hx3 => hlive ⟨hy, hx3⟩
        rw [threeInd_neg x0 _ hx3]
        ring
      · rw [oneInd_neg y0 _ hy]
        ring
    by_cases hbirth : ((y : ℤ) = y0 - 1 ∨ (y : ℤ) = y0 ∨ (y : ℤ) = y0 + 1) ∧ (x : ℤ) = x0
    · have hC : count_neighbours (hlineGrid y0 x0) (y : ℤ) (x : ℤ) = 3 := by
        rw [count_hlineGrid y0 x0 h1 h2 h3 h4,
          threeInd_sum_center x0 _ hbirth.2,
          threeInd_pos y0 _ hbirth.1, hz]
        norm_num
      have hR : vlineGrid y0 x0 y x = 1 := by
        unfold vlineGrid; exact if_pos hbirth
      rw [hL, hC, hR]
      norm_num
    · have hC : count_neighbours (hlineGrid y0 x0) (y : ℤ) (x : ℤ) ≠ 3 := by
        rw [count_hlineGrid y0 x0 h1 h2 h3 h4, hz, sub_zero]
        rcases threeInd_values y0 (y : ℤ) with ht | ht
        · rw [ht, zero_mul]
          norm_num
        · rw [ht, one_mul]
          exact threeInd_sum_ne3 x0 _ fun he => hbirth ⟨threeInd_eq_one y0 _ ht, he⟩
      have hR : vlineGrid y0 x0 y x = 0 := by
        unfold vlineGrid; exact if_neg hbirth
      rw [hL, hR]
      simp [hC]

/-- One step turns the vertical blinker phase back into the horizontal
one. -/
lemma blinker_v_to_h (y0 x0 : ℤ)
    (h1 : 2 ≤ y0) (h2 : y0 + 2 < GRID_HEIGHT) (h3 : 2 ≤ x0) (h4 : x0 + 2 < GRID_WIDTH) :
    update_grid (vlineGrid y0 x0) = hlineGrid y0 x0 := by
  funext y x
  simp only [update_grid]
  by_cases hlive : ((y : ℤ) = y0 - 1 ∨ (y : ℤ) = y0 ∨ (y : ℤ) = y0 + 1) ∧ (x : ℤ) = x0
  · have hL : vlineGrid y0 x0 y x = 1 := by
      unfold vlineGrid; exact if_pos hlive
    by_cases hy0 : (y : ℤ) = y0
    · have hC : count_neighbours (vlineGrid y0 x0) (y : ℤ) (x : ℤ) = 2 := by
        rw [count_vlineGrid y0 x0 h1 h2 h3 h4,
          threeInd_sum_center y0 _ hy0,
          threeInd_pos x0 _ (Or.inr (Or.inl hlive.2)),
          threeInd_pos y0 _ hlive.1,
          oneInd_pos x0 _ hlive.2]
        norm_num
      have hR : hlineGrid y0 x0 y x = 1 := by
        unfold hlineGrid; exact if_pos ⟨hy0, Or.inr (Or.inl hlive.2)⟩
      rw [hL, hC, hR]
      norm_num
    · have hadj : (y : ℤ) = y0 - 1 ∨ (y : ℤ) = y0 + 1 := by
        rcases hlive.1 with h | h | h
        · exact Or.inl h
        · exact absurd h hy0
        · exact Or.inr h
      have hC : count_neighbours (vlineGrid y0 x0) (y : ℤ) (x : ℤ) = 1 := by
        rw [count_vlineGrid y0 x0 h1 h2 h3 h4,
          threeInd_sum_adj y0 _ hadj,
          threeInd_pos x0 _ (Or.inr (Or.inl hlive.2)),
          threeInd_pos y0 _ hlive.1,
          oneInd_pos x0 _ hlive.2]
        norm_num
      have hR : hlineGrid y0 x0 y x = 0 := by
        unfold hlineGrid; exact if_neg fun hc => hy0 hc.1
      rw [hL, hC, hR]
      norm_num
  · have hL : vlineGrid y0 x0 y x = 0 := by
      unfold vlineGrid; exact if_neg hlive
    have hz : threeInd y0 (y : ℤ) * oneInd x0 (x : ℤ) = 0 := by
      by_cases hx : (x : ℤ) = x0
      · have hy3 : ¬ ((y : ℤ) = y0 - 1 ∨ (y : ℤ) = y0 ∨ (y : ℤ) = y0 + 1) :=
          fun hy3 => hlive ⟨hy3, hx⟩
        rw [threeInd_neg y0 _ hy3]
        ring
      · rw [oneInd_neg x0 _ hx]
        ring
    by_cases hbirth : (y : ℤ) = y0 ∧ ((x : ℤ) = x0 - 1 ∨ (x : ℤ) = x0 ∨ (x : ℤ) = x0 + 1)
    · have hC : count_neighbours (vlineGrid y0 x0) (y : ℤ) (x : ℤ) = 3 := by
        rw [count_vlineGrid y0 x0 h1 h2 h3 h4,
          threeInd_sum_center y0 _ hbirth.1,
          threeInd_pos x0 _ hbirth.2, hz]
        norm_num
      have hR : hlineGrid y0 x0 y x = 1 := by
        unfold hlineGrid; exact if_pos hbirth
      rw [hL, hC, hR]
      norm_num
    · have hC : count_neighbours (vlineGrid y0 x0) (y : ℤ) (x : ℤ) ≠ 3 := by
        rw [count_vlineGrid y0 x0 h1 h2 h3 h4, hz, sub_zero]
        rcases threeInd_values x0 (x : ℤ) with ht | ht
        · rw [ht, mul_zero]
          norm_num
        · rw [ht, mul_one]
          exact threeInd_sum_ne3 y0 _ fun he => hbirth ⟨he, threeInd_eq_one x0 _ ht⟩
      have hR : hlineGrid y0 x0 y x = 0 := by
        unfold hlineGrid; exact if_neg hbirth
      rw [hL, hR]
      simp [hC]

/-- **C7.** A 3-cell horizontal line placed so that the line and its
rotation are away from the boundary becomes the 3-cell vertical line
through the same centre after one `update_grid` step, and a second step
restores the original horizontal line (the blinker has period 2). -/
theorem blinker_period_two (y0 x0 : ℤ)
    (h : 2 ≤ y0 ∧ y0 + 2 < GRID_HEIGHT ∧ 2 ≤ x0 ∧ x0 + 2 < GRID_WIDTH) :
    update_grid (hlineGrid y0 x0) = vlineGrid y0 x0 ∧
    update_grid (update_grid (hlineGrid y0 x0)) = hlineGrid y0 x0 := by
  obtain ⟨h1, h2, h3, h4⟩ := h
  have hv := blinker_h_to_v y0 x0 h1 h2 h3 h4
  refine ⟨hv, ?_⟩
  rw [hv]
  exact blinker_v_to_h y0 x0 h1 h2 h3 h4

/-- **C7 (witness).** `blinker_period_two` for the blinker centred at
`(y, x) = (5, 6)`. -/
theorem blinker_period_two_witness :
    update_grid (hlineGrid 5 6) = vlineGrid 5 6 ∧
    update_grid (update_grid (hlineGrid 5 6)) = hlineGrid 5 6 :=
  blinker_period_two 5 6 (by decide)

end Life
